import Mathlib

/-!
Shallow embedding of the `SecretVoteBox` contract
(`contracts/SecretVoteBox.sol`, full version with finalization).

Modelling conventions:
* `euint32` ciphertext handles are modelled by their plaintext value, a `Nat`
  reduced modulo `2 ^ 32` wherever the contract performs 32-bit arithmetic
  (`FHE.add`, `uint32(i)` truncation, reading a 4-byte word).
* Solidity mappings become total functions with the zero-value default:
  `polls : Nat → Poll`, `_clearVoteCounts : Nat → List Nat`,
  `_requestToPoll : Nat → Nat`.
* `mapping(address => bool) hasVoted` is modelled as the list of addresses
  mapped to `true`; the code inserts an address only after checking it is
  absent, so the list never holds duplicates and its length is the number of
  distinct voters.
* The `cleartexts` byte blob handed to `decryptionCallback` is modelled as the
  list of its 4-byte big-endian words; the byte-length guard
  `cleartexts.length >= len * 4` becomes `len ≤ cleartexts.length`.
* `require` failures revert: each public operation returns `Except Err _` and
  an error leaves the state unchanged (`applyOp`).
* `block.timestamp` and `msg.sender` are explicit `now` / `sender` arguments;
  the `requestId` issued by `FHE.requestDecryption` is an explicit argument
  chosen by the environment.
-/

namespace SecretVoteBox

abbrev Address := Nat

/-- The modulus `2 ^ 32` of `euint32` / `uint32` arithmetic. -/
def M32 : Nat := 2 ^ 32

/-- Model of the `Poll` struct of the contract.  `encryptedVoteCounts` stores the
plaintext value of each option's encrypted counter. -/
structure Poll where
  title : String
  description : String
  options : List String
  expireAt : Nat
  creator : Address
  isActive : Bool
  encryptedVoteCounts : Nat → Nat
  hasVoted : List Address
  finalized : Bool

/-- The zero value of a `Poll` storage slot (what `polls[pollId]` holds for a
never-created id). -/
def defaultPoll : Poll :=
  ⟨"", "", [], 0, 0, false, fun _ => 0, [], false⟩

/-- Contract storage: `pollCount`, `polls`, `_clearVoteCounts`,
`_requestToPoll`. -/
structure State where
  pollCount : Nat
  polls : Nat → Poll
  clearVoteCounts : Nat → List Nat
  requestToPoll : Nat → Nat

/-- Storage of a freshly deployed contract. -/
def initState : State :=
  ⟨0, fun _ => defaultPoll, fun _ => [], fun _ => 0⟩

/-- The revert reasons of the contract's `require` statements (plus the
implicit `getPoll` / `getClearVoteCounts` guards). -/
inductive Err
  | InvalidTitle          -- "Title cannot be empty"
  | InsufficientOptions   -- "Must have at least 2 options"
  | InvalidExpiry         -- "Expiration must be in the future"
  | PollInactive          -- "Poll does not exist or is not active"
  | PollExpired           -- "Poll has expired"
  | AlreadyVoted          -- "Already voted"
  | PollNotFound          -- "Poll does not exist"
  | InvalidOptionIndex    -- "Invalid option index"
  | PollAlreadyEnded      -- "Poll does not exist or already ended"
  | PollNotExpired        -- "Poll has not expired yet"
  | PollStillActive       -- "Poll still active"
  | AlreadyFinalized      -- "Already finalized"
  | MalformedCleartext    -- "Invalid cleartexts length"
  | ResultsNotAvailable   -- "Results not available"
deriving DecidableEq, Repr

/-- The state written by a successful `createPoll` (body after the three
`require`s): allocate id `pollCount`, fill the struct fields, seed counters
`0 .. options.length - 1` with encrypted zero, increment `pollCount`.
The fields not assigned by the body (`hasVoted`, `finalized`) keep whatever
the storage slot already held. -/
def createCommit (s : State) (sender : Address) (title description : String)
    (options : List String) (expireAt : Nat) : State :=
  let old := s.polls s.pollCount
  let poll : Poll :=
    { old with
      title := title
      description := description
      options := options
      expireAt := expireAt
      creator := sender
      isActive := true
      encryptedVoteCounts := fun i =>
        if i < options.length then 0 else old.encryptedVoteCounts i }
  { s with
    pollCount := s.pollCount + 1
    polls := fun j => if j = s.pollCount then poll else s.polls j }

/-- Operation `createPoll(title, description, options, expireAt)` with `msg.sender`
and `block.timestamp` explicit.  Returns the new poll id and state. -/
def createPoll (s : State) (now : Nat) (sender : Address)
    (title description : String) (options : List String) (expireAt : Nat) :
    Except Err (Nat × State) :=
  if title.length = 0 then Except.error Err.InvalidTitle
  else if options.length < 2 then Except.error Err.InsufficientOptions
  else if expireAt ≤ now then Except.error Err.InvalidExpiry
  else Except.ok (s.pollCount, createCommit s sender title description options expireAt)

/-- The state written by a successful `vote` (body after the three
`require`s).  `optionIndex` is the plaintext of the external ciphertext,
reduced to 32 bits by `FHE.fromExternal`.  For every option slot `i` the code
adds `FHE.select(FHE.eq(choice, uint32(i)), 1, 0)` into the counter, a 32-bit
addition; the voter is then recorded in `hasVoted`. -/
def voteCommit (s : State) (sender : Address) (pollId : Nat)
    (optionIndex : Nat) : State :=
  let poll := s.polls pollId
  let c := optionIndex % M32
  let len := poll.options.length
  let poll2 : Poll :=
    { poll with
      encryptedVoteCounts := fun i =>
        if i < len then
          (poll.encryptedVoteCounts i + (if c = i % M32 then 1 else 0)) % M32
        else poll.encryptedVoteCounts i
      hasVoted := sender :: poll.hasVoted }
  { s with polls := fun j => if j = pollId then poll2 else s.polls j }

/-- Operation `vote(pollId, optionIndex, inputProof)`; the proof check is the external
service's job, so the model receives the already-validated plaintext. -/
def vote (s : State) (now : Nat) (sender : Address) (pollId : Nat)
    (optionIndex : Nat) : Except Err State :=
  let poll := s.polls pollId
  if poll.isActive = false then Except.error Err.PollInactive
  else if poll.expireAt ≤ now then Except.error Err.PollExpired
  else if sender ∈ poll.hasVoted then Except.error Err.AlreadyVoted
  else Except.ok (voteCommit s sender pollId optionIndex)

/-- View `getPoll(pollId)`: requires `poll.isActive`, then returns
`(title, description, options, expireAt, creator, isActive)`. -/
def getPoll (s : State) (pollId : Nat) :
    Except Err (String × String × List String × Nat × Address × Bool) :=
  let poll := s.polls pollId
  if poll.isActive = false then Except.error Err.PollNotFound
  else Except.ok (poll.title, poll.description, poll.options, poll.expireAt,
    poll.creator, poll.isActive)

/-- View `getEncryptedVoteCount(pollId, optionIndex)`. -/
def getEncryptedVoteCount (s : State) (pollId optionIndex : Nat) :
    Except Err Nat :=
  let poll := s.polls pollId
  if poll.isActive = false then Except.error Err.PollNotFound
  else if poll.options.length ≤ optionIndex then Except.error Err.InvalidOptionIndex
  else Except.ok (poll.encryptedVoteCounts optionIndex)

/-- View `hasVoted(pollId, voter)`. -/
def hasVotedView (s : State) (pollId : Nat) (voter : Address) : Bool :=
  voter ∈ (s.polls pollId).hasVoted

/-- The state written by a successful `endPoll`. -/
def endCommit (s : State) (pollId : Nat) : State :=
  { s with polls := fun j =>
      if j = pollId then { s.polls pollId with isActive := false } else s.polls j }

/-- Operation `endPoll(pollId)`. -/
def endPoll (s : State) (now : Nat) (pollId : Nat) : Except Err State :=
  let poll := s.polls pollId
  if poll.isActive = false then Except.error Err.PollAlreadyEnded
  else if now < poll.expireAt then Except.error Err.PollNotExpired
  else Except.ok (endCommit s pollId)

/-- View `getPollCount()`. -/
def getPollCount (s : State) : Nat := s.pollCount

/-- The state written by a successful `requestFinalize`: record
`_requestToPoll[requestId] = pollId`. -/
def requestCommit (s : State) (pollId requestId : Nat) : State :=
  { s with requestToPoll := fun r =>
      if r = requestId then pollId else s.requestToPoll r }

/-- Operation `requestFinalize(pollId)`: after the two guards, gathers the ordered batch
of ciphertext handles (returned here so the oracle scenario can be expressed)
and records the pending request under the oracle-issued `requestId`. -/
def requestFinalize (s : State) (pollId requestId : Nat) :
    Except Err (List Nat × State) :=
  let poll := s.polls pollId
  if poll.isActive then Except.error Err.PollStillActive
  else if poll.finalized then Except.error Err.AlreadyFinalized
  else
    let cts := (List.range poll.options.length).map poll.encryptedVoteCounts
    Except.ok (cts, requestCommit s pollId requestId)

/-- The state written by a successful `decryptionCallback` for target
`pollId`: replace `_clearVoteCounts[pollId]` with the parsed counts and set
`finalized`.  (The `_requestToPoll` entry is NOT deleted by the code.) -/
def callbackCommit (s : State) (pollId : Nat) (counts : List Nat) : State :=
  { s with
    polls := fun j =>
      if j = pollId then { s.polls pollId with finalized := true } else s.polls j
    clearVoteCounts := fun p => if p = pollId then counts else s.clearVoteCounts p }

/-- Operation `decryptionCallback(requestId, cleartexts, signatures)`: looks the target
poll up through `_requestToPoll` (an unknown id yields the mapping default
`0`), re-checks `finalized` / `isActive`, checks the blob length, parses one
32-bit word per option, stores them and sets `finalized`. -/
def decryptionCallback (s : State) (requestId : Nat) (cleartexts : List Nat) :
    Except Err State :=
  let pollId := s.requestToPoll requestId
  let poll := s.polls pollId
  if poll.finalized then Except.error Err.AlreadyFinalized
  else if poll.isActive then Except.error Err.PollStillActive
  else
    let len := poll.options.length
    if cleartexts.length < len then Except.error Err.MalformedCleartext
    else
      Except.ok (callbackCommit s pollId
        ((List.range len).map (fun i => cleartexts.getD i 0 % M32)))

/-- View `isFinalized(pollId)`. -/
def isFinalized (s : State) (pollId : Nat) : Bool :=
  (s.polls pollId).finalized

/-- View `getClearVoteCounts(pollId)`. -/
def getClearVoteCounts (s : State) (pollId : Nat) : Except Err (List Nat) :=
  if (s.polls pollId).finalized = false then Except.error Err.ResultsNotAvailable
  else Except.ok (s.clearVoteCounts pollId)

/-- One invocation of a state-mutating public operation, with its
environment-chosen parameters (`block.timestamp`, `msg.sender`, oracle
request id, oracle-delivered cleartexts). -/
inductive Op
  | create (now : Nat) (sender : Address) (title description : String)
      (options : List String) (expireAt : Nat)
  | castVote (now : Nat) (sender : Address) (pollId optionIndex : Nat)
  | endp (now : Nat) (pollId : Nat)
  | request (pollId requestId : Nat)
  | callback (requestId : Nat) (cleartexts : List Nat)

/-- Execute one operation; a revert (error) leaves the state unchanged. -/
def applyOp (s : State) (op : Op) : State :=
  match op with
  | Op.create now sender title description options expireAt =>
      match createPoll s now sender title description options expireAt with
      | Except.ok x => x.2
      | Except.error _ => s
  | Op.castVote now sender pollId optionIndex =>
      match vote s now sender pollId optionIndex with
      | Except.ok s2 => s2
      | Except.error _ => s
  | Op.endp now pollId =>
      match endPoll s now pollId with
      | Except.ok s2 => s2
      | Except.error _ => s
  | Op.request pollId requestId =>
      match requestFinalize s pollId requestId with
      | Except.ok x => x.2
      | Except.error _ => s
  | Op.callback requestId cleartexts =>
      match decryptionCallback s requestId cleartexts with
      | Except.ok s2 => s2
      | Except.error _ => s

/-- Execute a sequence of operations. -/
def run (s : State) (ops : List Op) : State := ops.foldl applyOp s

/-- An operation is "good" when, if it is an oracle callback, its request id
resolves (through the request table) to an already-created poll.  All other
operations are unconditionally good. -/
def goodOp (s : State) : Op → Bool
  | Op.callback requestId _ => decide (s.requestToPoll requestId < s.pollCount)
  | _ => true

/-- A sequence of operations all of which are good at the state where they
execute. -/
def goodFrom : State → List Op → Bool
  | _, [] => true
  | s, op :: ops => goodOp s op && goodFrom (applyOp s op) ops

/-- Sum of a poll's encrypted counters over its option indices. -/
def sumCounters (p : Poll) : Nat :=
  Finset.sum (Finset.range p.options.length) p.encryptedVoteCounts

/-- The honest-oracle finalization scenario: `requestFinalize` captures the
batch of ciphertexts, and the callback delivers exactly that batch's
plaintexts. -/
def honestFinalize (s : State) (pollId requestId : Nat) : Except Err State :=
  match requestFinalize s pollId requestId with
  | Except.error e => Except.error e
  | Except.ok x => decryptionCallback x.2 requestId x.1

/-- Unconditional state invariants: never-created poll ids are inactive with
no options; every counter is a 32-bit value; for any poll with at most
`2 ^ 32` options, the sum of its counters never exceeds its voter count. -/
def UInv (s : State) : Prop :=
  (∀ p, s.pollCount ≤ p → (s.polls p).isActive = false ∧ (s.polls p).options = [])
  ∧ (∀ p i, (s.polls p).encryptedVoteCounts i < M32)
  ∧ (∀ p, (s.polls p).options.length ≤ M32 →
      sumCounters (s.polls p) ≤ (s.polls p).hasVoted.length)

/-- Invariants that additionally require every executed callback to resolve
to an already-created poll: never-created ids are unfinalized; no poll is
both active and finalized; a finalized poll's clear counts are index-aligned
32-bit values. -/
def GInv (s : State) : Prop :=
  (∀ p, s.pollCount ≤ p → (s.polls p).finalized = false)
  ∧ (∀ p, ¬((s.polls p).isActive = true ∧ (s.polls p).finalized = true))
  ∧ (∀ p, (s.polls p).finalized = true →
      (s.clearVoteCounts p).length = (s.polls p).options.length ∧
      ∀ v ∈ s.clearVoteCounts p, v < M32)

lemma M32_pos : 0 < M32 := by unfold M32; positivity

lemma sum_map_range (f : Nat → Nat) (n : Nat) :
    ((List.range n).map f).sum = Finset.sum (Finset.range n) f := by
  induction n with
  | zero => simp
  | succ m ih =>
      rw [List.range_succ, Finset.sum_range_succ, List.map_append, List.sum_append]
      simp [ih]

lemma getD_map_range (f : Nat → Nat) (n i : Nat) (hi : i < n) :
    ((List.range n).map f).getD i 0 = f i := by
  rw [List.getD_eq_getElem?_getD, List.getElem?_map, List.getElem?_range hi]
  rfl

lemma sum_indicator_le (n c : Nat) (hn : n ≤ M32) :
    Finset.sum (Finset.range n) (fun i => if c % M32 = i % M32 then 1 else 0) ≤ 1 := by
  have h1 : Finset.sum (Finset.range n) (fun i => if c % M32 = i % M32 then 1 else 0)
      = Finset.sum (Finset.range n) (fun i => if c % M32 = i then 1 else 0) := by
    apply Finset.sum_congr rfl
    intro i hi
    rw [Nat.mod_eq_of_lt (lt_of_lt_of_le (Finset.mem_range.mp hi) hn)]
  rw [h1, Finset.sum_ite_eq]
  split <;> simp

lemma applyOp_create_cases (s : State) (now : Nat) (sender : Address)
    (t d : String) (o : List String) (e : Nat) :
    applyOp s (Op.create now sender t d o e) = s ∨
    applyOp s (Op.create now sender t d o e) = createCommit s sender t d o e := by
  unfold applyOp createPoll
  by_cases h1 : t.length = 0 <;> by_cases h2 : o.length < 2 <;>
    by_cases h3 : e ≤ now <;> simp [h1, h2, h3]

lemma applyOp_castVote_cases (s : State) (now : Nat) (sender : Address)
    (pid c : Nat) :
    applyOp s (Op.castVote now sender pid c) = s ∨
    ((s.polls pid).isActive = true ∧
      applyOp s (Op.castVote now sender pid c) = voteCommit s sender pid c) := by
  unfold applyOp vote
  cases hb : (s.polls pid).isActive <;>
    by_cases h2 : (s.polls pid).expireAt ≤ now <;>
    by_cases h3 : sender ∈ (s.polls pid).hasVoted <;> simp [hb, h2, h3]

lemma applyOp_endp_cases (s : State) (now pid : Nat) :
    applyOp s (Op.endp now pid) = s ∨
    applyOp s (Op.endp now pid) = endCommit s pid := by
  unfold applyOp endPoll
  cases hb : (s.polls pid).isActive <;>
    by_cases h2 : now < (s.polls pid).expireAt <;> simp [hb, h2]

lemma applyOp_request_cases (s : State) (pid rid : Nat) :
    applyOp s (Op.request pid rid) = s ∨
    applyOp s (Op.request pid rid) = requestCommit s pid rid := by
  unfold applyOp requestFinalize
  cases hb : (s.polls pid).isActive <;>
    cases hf : (s.polls pid).finalized <;> simp [hb, hf]

lemma applyOp_callback_cases (s : State) (rid : Nat) (cl : List Nat) :
    applyOp s (Op.callback rid cl) = s ∨
    ((s.polls (s.requestToPoll rid)).finalized = false ∧
      (s.polls (s.requestToPoll rid)).isActive = false ∧
      applyOp s (Op.callback rid cl) = callbackCommit s (s.requestToPoll rid)
        ((List.range (s.polls (s.requestToPoll rid)).options.length).map
          (fun i => cl.getD i 0 % M32))) := by
  unfold applyOp decryptionCallback
  cases hf : (s.polls (s.requestToPoll rid)).finalized <;>
    cases hb : (s.polls (s.requestToPoll rid)).isActive <;>
    by_cases h3 : cl.length < (s.polls (s.requestToPoll rid)).options.length <;>
    simp [hf, hb, h3]

lemma vote_ok_elim (s : State) (now : Nat) (sender : Address) (pid c : Nat)
    (h : (vote s now sender pid c).isOk = true) :
    (s.polls pid).isActive = true ∧ now < (s.polls pid).expireAt ∧
    sender ∉ (s.polls pid).hasVoted ∧
    vote s now sender pid c = Except.ok (voteCommit s sender pid c) := by
  unfold vote at h ⊢
  cases hb : (s.polls pid).isActive <;>
    by_cases h2 : (s.polls pid).expireAt ≤ now <;>
    by_cases h3 : sender ∈ (s.polls pid).hasVoted <;>
    simp [hb, h2, h3, Except.isOk, Except.toBool] at h ⊢ <;> omega

lemma requestFinalize_ok_elim (s : State) (pid rid : Nat)
    (h : (requestFinalize s pid rid).isOk = true) :
    (s.polls pid).isActive = false ∧ (s.polls pid).finalized = false ∧
    requestFinalize s pid rid = Except.ok
      ((List.range (s.polls pid).options.length).map (s.polls pid).encryptedVoteCounts,
        requestCommit s pid rid) := by
  unfold requestFinalize at h ⊢
  cases hb : (s.polls pid).isActive <;> cases hf : (s.polls pid).finalized <;>
    simp [hb, hf, Except.isOk, Except.toBool] at h ⊢

lemma decryptionCallback_ok_elim (s : State) (rid : Nat) (cl : List Nat)
    (h : (decryptionCallback s rid cl).isOk = true) :
    (s.polls (s.requestToPoll rid)).finalized = false ∧
    (s.polls (s.requestToPoll rid)).isActive = false ∧
    (s.polls (s.requestToPoll rid)).options.length ≤ cl.length ∧
    decryptionCallback s rid cl = Except.ok (callbackCommit s (s.requestToPoll rid)
      ((List.range (s.polls (s.requestToPoll rid)).options.length).map
        (fun i => cl.getD i 0 % M32))) := by
  unfold decryptionCallback at h ⊢
  cases hf : (s.polls (s.requestToPoll rid)).finalized <;>
    cases hb : (s.polls (s.requestToPoll rid)).isActive <;>
    by_cases h3 : cl.length < (s.polls (s.requestToPoll rid)).options.length <;>
    simp [hf, hb, h3, Except.isOk, Except.toBool] at h ⊢ <;> omega

lemma UInv_init : UInv initState := by
  refine ⟨fun p _ => ⟨rfl, rfl⟩, fun p i => M32_pos, fun p _ => ?_⟩
  simp [initState, defaultPoll, sumCounters]

lemma GInv_init : GInv initState := by
  refine ⟨fun p _ => rfl, fun p h => ?_, fun p h => ?_⟩
  · exact absurd h.2 (by simp [initState, defaultPoll])
  · exact absurd h (by simp [initState, defaultPoll])

lemma UInv_createCommit (s : State) (sender : Address) (t d : String)
    (o : List String) (e : Nat) (h : UInv s) :
    UInv (createCommit s sender t d o e) := by
  obtain ⟨hD, hV, hK⟩ := h
  refine ⟨fun p hp => ?_, fun p i => ?_, fun p hlen => ?_⟩
  · simp only [createCommit] at hp ⊢
    have hps : ¬(p = s.pollCount) := by omega
    simp only [hps, if_neg, if_false]
    exact hD p (by omega)
  · simp only [createCommit]
    by_cases hp : p = s.pollCount
    · simp only [hp, if_pos, if_true]
      by_cases hi : i < o.length
      · simpa [hi] using M32_pos
      · simpa [hi] using hV s.pollCount i
    · simpa [hp] using hV p i
  · by_cases hp : p = s.pollCount
    · subst hp
      simp only [createCommit, sumCounters] at hlen ⊢
      simp only [if_pos]
      have : Finset.sum (Finset.range o.length)
          (fun i => if i < o.length then 0
            else (s.polls s.pollCount).encryptedVoteCounts i) = 0 := by
        apply Finset.sum_eq_zero
        intro i hi
        simp [Finset.mem_range.mp hi]
      simp [this]
    · simp only [createCommit, sumCounters] at hlen ⊢
      simp only [hp, if_neg, if_false] at hlen ⊢
      exact hK p hlen

lemma UInv_voteCommit (s : State) (sender : Address) (pid c : Nat)
    (h : UInv s) (hact : (s.polls pid).isActive = true) :
    UInv (voteCommit s sender pid c) := by
  obtain ⟨hD, hV, hK⟩ := h
  refine ⟨fun p hp => ?_, fun p i => ?_, fun p hlen => ?_⟩
  · simp only [voteCommit] at hp ⊢
    by_cases hps : p = pid
    · exact absurd hact (by rw [← hps]; simp [(hD p hp).1])
    · simp only [hps, if_neg, if_false]
      exact hD p hp
  · simp only [voteCommit]
    by_cases hp : p = pid
    · simp only [hp, if_pos, if_true]
      by_cases hi : i < (s.polls pid).options.length
      · simpa [hi] using Nat.mod_lt _ M32_pos
      · simpa [hi] using hV pid i
    · simpa [hp] using hV p i
  · by_cases hp : p = pid
    · subst hp
      simp only [voteCommit, sumCounters] at hlen ⊢
      simp only [if_pos] at hlen ⊢
      have hlen' : (s.polls p).options.length ≤ M32 := hlen
      calc Finset.sum (Finset.range (s.polls p).options.length)
            (fun i => if i < (s.polls p).options.length then
                ((s.polls p).encryptedVoteCounts i +
                  (if c % M32 = i % M32 then 1 else 0)) % M32
              else (s.polls p).encryptedVoteCounts i)
          = Finset.sum (Finset.range (s.polls p).options.length)
            (fun i => ((s.polls p).encryptedVoteCounts i +
                (if c % M32 = i % M32 then 1 else 0)) % M32) := by
            apply Finset.sum_congr rfl
            intro i hi
            simp [Finset.mem_range.mp hi]
        _ ≤ Finset.sum (Finset.range (s.polls p).options.length)
            (fun i => (s.polls p).encryptedVoteCounts i +
                (if c % M32 = i % M32 then 1 else 0)) :=
            Finset.sum_le_sum (fun i _ => Nat.mod_le _ _)
        _ = Finset.sum (Finset.range (s.polls p).options.length)
              (s.polls p).encryptedVoteCounts +
            Finset.sum (Finset.range (s.polls p).options.length)
              (fun i => if c % M32 = i % M32 then 1 else 0) :=
            Finset.sum_add_distrib
        _ ≤ (s.polls p).hasVoted.length + 1 :=
            Nat.add_le_add (hK p hlen') (sum_indicator_le _ c hlen')
        _ = ((sender :: (s.polls p).hasVoted).length) := by simp
    · simp only [voteCommit, sumCounters] at hlen ⊢
      simp only [hp, if_neg, if_false] at hlen ⊢
      exact hK p hlen

lemma UInv_endCommit (s : State) (pid : Nat) (h : UInv s) :
    UInv (endCommit s pid) := by
  obtain ⟨hD, hV, hK⟩ := h
  refine ⟨fun p hp => ?_, fun p i => ?_, fun p hlen => ?_⟩
  · simp only [endCommit] at hp ⊢
    by_cases hps : p = pid
    · subst hps
      simpa using (hD p hp).2
    · simpa [hps] using hD p hp
  · simp only [endCommit]
    by_cases hp : p = pid
    · simpa [hp] using hV pid i
    · simpa [hp] using hV p i
  · simp only [endCommit, sumCounters] at hlen ⊢
    by_cases hp : p = pid
    · subst hp
      simp only [if_pos] at hlen ⊢
      exact hK p hlen
    · simp only [hp, if_neg, if_false] at hlen ⊢
      exact hK p hlen

lemma UInv_requestCommit (s : State) (pid rid : Nat) (h : UInv s) :
    UInv (requestCommit s pid rid) := h

lemma UInv_callbackCommit (s : State) (pid : Nat) (counts : List Nat)
    (h : UInv s) : UInv (callbackCommit s pid counts) := by
  obtain ⟨hD, hV, hK⟩ := h
  refine ⟨fun p hp => ?_, fun p i => ?_, fun p hlen => ?_⟩
  · simp only [callbackCommit] at hp ⊢
    by_cases hps : p = pid
    · subst hps
      simpa using hD p hp
    · simpa [hps] using hD p hp
  · simp only [callbackCommit]
    by_cases hp : p = pid
    · simpa [hp] using hV pid i
    · simpa [hp] using hV p i
  · simp only [callbackCommit, sumCounters] at hlen ⊢
    by_cases hp : p = pid
    · subst hp
      simp only [if_pos] at hlen ⊢
      exact hK p hlen
    · simp only [hp, if_neg, if_false] at hlen ⊢
      exact hK p hlen

lemma UInv_applyOp (s : State) (op : Op) (h : UInv s) : UInv (applyOp s op) := by
  cases op with
  | create now sender t d o e =>
      rcases applyOp_create_cases s now sender t d o e with heq | heq <;> rw [heq]
      · exact h
      · exact UInv_createCommit s sender t d o e h
  | castVote now sender pid c =>
      rcases applyOp_castVote_cases s now sender pid c with heq | ⟨hact, heq⟩ <;> rw [heq]
      · exact h
      · exact UInv_voteCommit s sender pid c h hact
  | endp now pid =>
      rcases applyOp_endp_cases s now pid with heq | heq <;> rw [heq]
      · exact h
      · exact UInv_endCommit s pid h
  | request pid rid =>
      rcases applyOp_request_cases s pid rid with heq | heq <;> rw [heq]
      · exact h
      · exact UInv_requestCommit s pid rid h
  | callback rid cl =>
      rcases applyOp_callback_cases s rid cl with heq | ⟨_, _, heq⟩ <;> rw [heq]
      · exact h
      · exact UInv_callbackCommit s _ _ h

lemma UInv_run (ops : List Op) : ∀ s : State, UInv s → UInv (run s ops) := by
  induction ops with
  | nil => exact fun s h => h
  | cons op ops ih =>
      intro s h
      exact ih (applyOp s op) (UInv_applyOp s op h)

lemma GInv_createCommit (s : State) (sender : Address) (t d : String)
    (o : List String) (e : Nat) (h : GInv s) :
    GInv (createCommit s sender t d o e) := by
  obtain ⟨hF, hI, hL⟩ := h
  refine ⟨fun p hp => ?_, fun p hc => ?_, fun p hf => ?_⟩
  · simp only [createCommit] at hp ⊢
    have hps : ¬(p = s.pollCount) := by omega
    simp only [hps, if_neg, if_false]
    exact hF p (by omega)
  · simp only [createCommit] at hc
    by_cases hp : p = s.pollCount
    · simp only [hp, if_pos, if_true] at hc
      exact absurd hc.2 (by simp [hF s.pollCount (le_refl _)])
    · simp only [hp, if_neg, if_false] at hc
      exact hI p hc
  · simp only [createCommit] at hf ⊢
    by_cases hp : p = s.pollCount
    · simp only [hp, if_pos, if_true] at hf
      exact absurd hf (by simp [hF s.pollCount (le_refl _)])
    · simp only [hp, if_neg, if_false] at hf ⊢
      exact hL p hf

lemma GInv_voteCommit (s : State) (sender : Address) (pid c : Nat)
    (h : GInv s) : GInv (voteCommit s sender pid c) := by
  obtain ⟨hF, hI, hL⟩ := h
  refine ⟨fun p hp => ?_, fun p hc => ?_, fun p hf => ?_⟩
  · simp only [voteCommit] at hp ⊢
    by_cases hps : p = pid
    · subst hps
      simpa using hF p hp
    · simpa [hps] using hF p hp
  · simp only [voteCommit] at hc
    by_cases hp : p = pid
    · subst hp
      simp only [if_pos, if_true] at hc
      exact hI p (by simpa using hc)
    · simp only [hp, if_neg, if_false] at hc
      exact hI p hc
  · simp only [voteCommit] at hf ⊢
    by_cases hp : p = pid
    · subst hp
      simp only [if_pos, if_true] at hf ⊢
      simpa using hL p (by simpa using hf)
    · simp only [hp, if_neg, if_false] at hf ⊢
      exact hL p hf

lemma GInv_endCommit (s : State) (pid : Nat) (h : GInv s) :
    GInv (endCommit s pid) := by
  obtain ⟨hF, hI, hL⟩ := h
  refine ⟨fun p hp => ?_, fun p hc => ?_, fun p hf => ?_⟩
  · simp only [endCommit] at hp ⊢
    by_cases hps : p = pid
    · subst hps
      simpa using hF p hp
    · simpa [hps] using hF p hp
  · simp only [endCommit] at hc
    by_cases hp : p = pid
    · subst hp
      simp only [if_pos, if_true] at hc
      simp at hc
    · simp only [hp, if_neg, if_false] at hc
      exact hI p hc
  · simp only [endCommit] at hf ⊢
    by_cases hp : p = pid
    · subst hp
      simp only [if_pos, if_true] at hf ⊢
      simpa using hL p (by simpa using hf)
    · simp only [hp, if_neg, if_false] at hf ⊢
      exact hL p hf

lemma GInv_requestCommit (s : State) (pid rid : Nat) (h : GInv s) :
    GInv (requestCommit s pid rid) := h

lemma GInv_callbackCommit (s : State) (pid : Nat) (cl : List Nat)
    (h : GInv s) (hpid : pid < s.pollCount)
    (hact : (s.polls pid).isActive = false) :
    GInv (callbackCommit s pid
      ((List.range (s.polls pid).options.length).map (fun i => cl.getD i 0 % M32))) := by
  obtain ⟨hF, hI, hL⟩ := h
  refine ⟨fun p hp => ?_, fun p hc => ?_, fun p hf => ?_⟩
  · simp only [callbackCommit] at hp ⊢
    have hps : ¬(p = pid) := by omega
    simp only [hps, if_neg, if_false]
    exact hF p hp
  · simp only [callbackCommit] at hc
    by_cases hp : p = pid
    · subst hp
      simp only [if_pos, if_true] at hc
      simp [hact] at hc
    · simp only [hp, if_neg, if_false] at hc
      exact hI p hc
  · simp only [callbackCommit] at hf ⊢
    by_cases hp : p = pid
    · subst hp
      simp only [if_pos, if_true] at hf ⊢
      constructor
      · simp
      · intro v hv
        simp only [List.mem_map] at hv
        obtain ⟨i, _, hvi⟩ := hv
        rw [← hvi]
        exact Nat.mod_lt _ M32_pos
    · simp only [hp, if_neg, if_false] at hf ⊢
      exact hL p hf

lemma GInv_applyOp (s : State) (op : Op) (h : GInv s)
    (hgood : goodOp s op = true) : GInv (applyOp s op) := by
  cases op with
  | create now sender t d o e =>
      rcases applyOp_create_cases s now sender t d o e with heq | heq <;> rw [heq]
      · exact h
      · exact GInv_createCommit s sender t d o e h
  | castVote now sender pid c =>
      rcases applyOp_castVote_cases s now sender pid c with heq | ⟨hact, heq⟩ <;> rw [heq]
      · exact h
      · exact GInv_voteCommit s sender pid c h
  | endp now pid =>
      rcases applyOp_endp_cases s now pid with heq | heq <;> rw [heq]
      · exact h
      · exact GInv_endCommit s pid h
  | request pid rid =>
      rcases applyOp_request_cases s pid rid with heq | heq <;> rw [heq]
      · exact h
      · exact GInv_requestCommit s pid rid h
  | callback rid cl =>
      rcases applyOp_callback_cases s rid cl with heq | ⟨_, hact, heq⟩ <;> rw [heq]
      · exact h
      · simp only [goodOp, decide_eq_true_eq] at hgood
        exact GInv_callbackCommit s _ cl h hgood hact

lemma GInv_run (ops : List Op) : ∀ s : State, GInv s →
    goodFrom s ops = true → GInv (run s ops) := by
  induction ops with
  | nil => exact fun s h _ => h
  | cons op ops ih =>
      intro s h hgood
      simp only [goodFrom, Bool.and_eq_true] at hgood
      exact ih (applyOp s op) (GInv_applyOp s op h hgood.1) hgood.2

lemma vote_already (s : State) (now : Nat) (sender : Address) (pid c : Nat)
    (hact : (s.polls pid).isActive = true)
    (hexp : now < (s.polls pid).expireAt)
    (hmem : sender ∈ (s.polls pid).hasVoted) :
    vote s now sender pid c = Except.error Err.AlreadyVoted := by
  simp only [vote]
  rw [if_neg (by simp [hact]), if_neg (Nat.not_le.mpr hexp), if_pos hmem]

/-- C9: endPoll on an active poll fails with PollNotExpired strictly before
expireAt, succeeds at or past expireAt (clearing isActive), and fails with
PollAlreadyEnded on an inactive poll. -/
theorem C9_endPoll_lifecycle (s : State) (now pollId : Nat) :
    ((s.polls pollId).isActive = true → now < (s.polls pollId).expireAt →
        endPoll s now pollId = Except.error Err.PollNotExpired)
    ∧ ((s.polls pollId).isActive = true → (s.polls pollId).expireAt ≤ now →
        endPoll s now pollId = Except.ok (endCommit s pollId) ∧
        ((applyOp s (Op.endp now pollId)).polls pollId).isActive = false)
    ∧ ((s.polls pollId).isActive = false →
        endPoll s now pollId = Except.error Err.PollAlreadyEnded) := by
  refine ⟨fun ha he => ?_, fun ha he => ⟨?_, ?_⟩, fun ha => ?_⟩
  · simp only [endPoll]
    rw [if_neg (by simp [ha]), if_pos he]
  · simp only [endPoll]
    rw [if_neg (by simp [ha]), if_neg (Nat.not_lt.mpr he)]
  · have hok : endPoll s now pollId = Except.ok (endCommit s pollId) := by
      simp only [endPoll]
      rw [if_neg (by simp [ha]), if_neg (Nat.not_lt.mpr he)]
    simp only [applyOp]
    rw [hok]
    simp [endCommit]
  · simp only [endPoll]
    rw [if_pos ha]

theorem C9_witness :
    (endPoll (run initState [Op.create 0 1 "T" "" ["A", "B"] 10]) 5 0
      = Except.error Err.PollNotExpired)
    ∧ (endPoll (run initState [Op.create 0 1 "T" "" ["A", "B"] 10]) 10 0
      = Except.ok (endCommit (run initState [Op.create 0 1 "T" "" ["A", "B"] 10]) 0))
    ∧ (((applyOp (run initState [Op.create 0 1 "T" "" ["A", "B"] 10]) (Op.endp 10 0)).polls 0).isActive = false)
    ∧ (endPoll initState 3 0 = Except.error Err.PollAlreadyEnded) :=
  ⟨(C9_endPoll_lifecycle (run initState [Op.create 0 1 "T" "" ["A", "B"] 10]) 5 0).1
      (by decide) (by decide),
   ((C9_endPoll_lifecycle (run initState [Op.create 0 1 "T" "" ["A", "B"] 10]) 10 0).2.1
      (by decide) (by decide)).1,
   ((C9_endPoll_lifecycle (run initState [Op.create 0 1 "T" "" ["A", "B"] 10]) 10 0).2.1
      (by decide) (by decide)).2,
   (C9_endPoll_lifecycle initState 3 0).2.2 (by decide)⟩

/-- C6: if a voter's first vote on an active, unexpired poll succeeds, a
second vote call by the same voter on that poll (while the poll is still
before its expiry) fails with AlreadyVoted and, since the call reverts,
leaves the whole state — in particular every encrypted counter — exactly as
it was after the first call. -/
theorem C6_double_vote (s : State) (t1 t2 : Nat) (sender : Address)
    (pollId c1 c2 : Nat)
    (h1 : (vote s t1 sender pollId c1).isOk = true)
    (h2 : t2 < (s.polls pollId).expireAt) :
    vote (applyOp s (Op.castVote t1 sender pollId c1)) t2 sender pollId c2
      = Except.error Err.AlreadyVoted
    ∧ applyOp (applyOp s (Op.castVote t1 sender pollId c1))
        (Op.castVote t2 sender pollId c2)
      = applyOp s (Op.castVote t1 sender pollId c1) := by
  obtain ⟨hact, _, _, heq⟩ := vote_ok_elim s t1 sender pollId c1 h1
  have hs1 : applyOp s (Op.castVote t1 sender pollId c1)
      = voteCommit s sender pollId c1 := by
    simp only [applyOp]
    rw [heq]
  have hA : ((voteCommit s sender pollId c1).polls pollId).isActive = true := by
    simp [voteCommit, hact]
  have hE : ((voteCommit s sender pollId c1).polls pollId).expireAt
      = (s.polls pollId).expireAt := by simp [voteCommit]
  have hH : ((voteCommit s sender pollId c1).polls pollId).hasVoted
      = sender :: (s.polls pollId).hasVoted := by simp [voteCommit]
  have herr : vote (voteCommit s sender pollId c1) t2 sender pollId c2
      = Except.error Err.AlreadyVoted := by
    apply vote_already
    · exact hA
    · rw [hE]; exact h2
    · rw [hH]; exact List.mem_cons_self sender _
  refine ⟨by rw [hs1]; exact herr, ?_⟩
  conv_lhs => rw [hs1]
  simp only [applyOp]
  rw [herr, heq]

theorem C6_witness :
    (vote (applyOp (run initState [Op.create 0 1 "T" "" ["A", "B"] 10])
        (Op.castVote 1 2 0 0)) 2 2 0 1 = Except.error Err.AlreadyVoted)
    ∧ (applyOp (applyOp (run initState [Op.create 0 1 "T" "" ["A", "B"] 10])
        (Op.castVote 1 2 0 0)) (Op.castVote 2 2 0 1)
      = applyOp (run initState [Op.create 0 1 "T" "" ["A", "B"] 10])
        (Op.castVote 1 2 0 0)) :=
  C6_double_vote (run initState [Op.create 0 1 "T" "" ["A", "B"] 10]) 1 2 2 0 0 1
    (by decide) (by decide)

lemma finalized_step (s : State) (op : Op) (p : Nat)
    (hf : (s.polls p).finalized = true) :
    ((applyOp s op).polls p).finalized = true
    ∧ (applyOp s op).clearVoteCounts p = s.clearVoteCounts p := by
  cases op with
  | create now sender t d o e =>
      rcases applyOp_create_cases s now sender t d o e with heq | heq <;> rw [heq]
      · exact ⟨hf, rfl⟩
      · refine ⟨?_, rfl⟩
        simp only [createCommit]
        by_cases hp : p = s.pollCount
        · subst hp; simpa using hf
        · simpa [hp] using hf
  | castVote now sender pid c =>
      rcases applyOp_castVote_cases s now sender pid c with heq | ⟨_, heq⟩ <;> rw [heq]
      · exact ⟨hf, rfl⟩
      · refine ⟨?_, rfl⟩
        simp only [voteCommit]
        by_cases hp : p = pid
        · subst hp; simpa using hf
        · simpa [hp] using hf
  | endp now pid =>
      rcases applyOp_endp_cases s now pid with heq | heq <;> rw [heq]
      · exact ⟨hf, rfl⟩
      · refine ⟨?_, rfl⟩
        simp only [endCommit]
        by_cases hp : p = pid
        · subst hp; simpa using hf
        · simpa [hp] using hf
  | request pid rid =>
      rcases applyOp_request_cases s pid rid with heq | heq <;> rw [heq]
      · exact ⟨hf, rfl⟩
      · exact ⟨hf, rfl⟩
  | callback rid cl =>
      rcases applyOp_callback_cases s rid cl with heq | ⟨hfq, _, heq⟩ <;> rw [heq]
      · exact ⟨hf, rfl⟩
      · have hp : ¬(p = s.requestToPoll rid) := by
          intro hcontra
          rw [← hcontra] at hfq
          rw [hf] at hfq
          exact absurd hfq (by simp)
        constructor
        · simp only [callbackCommit]
          simpa [hp] using hf
        · simp only [callbackCommit]
          simp [hp]

lemma finalized_run (s : State) (ops : List Op) (p : Nat)
    (hf : (s.polls p).finalized = true) :
    ((run s ops).polls p).finalized = true
    ∧ (run s ops).clearVoteCounts p = s.clearVoteCounts p := by
  induction ops generalizing s with
  | nil => exact ⟨hf, rfl⟩
  | cons op ops ih =>
      have hstep := finalized_step s op p hf
      have hrest := ih (applyOp s op) hstep.1
      exact ⟨hrest.1, hrest.2.trans hstep.2⟩

/-- C7: once a poll is finalized, any decryptionCallback whose requestId maps
(through the request table) to that poll is rejected with AlreadyFinalized,
and the poll's clearVoteCounts never change again under any sequence of
further operations. -/
theorem C7_finalize_idempotent (s : State) (p : Nat)
    (hf : (s.polls p).finalized = true) :
    (∀ rid cts, s.requestToPoll rid = p →
        decryptionCallback s rid cts = Except.error Err.AlreadyFinalized)
    ∧ ∀ ops, (run s ops).clearVoteCounts p = s.clearVoteCounts p := by
  constructor
  · intro rid cts hmap
    simp only [decryptionCallback]
    rw [hmap, if_pos hf]
  · intro ops
    exact (finalized_run s ops p hf).2

theorem C7_witness :
    (decryptionCallback (run initState [Op.create 0 1 "T" "" ["A", "B"] 10,
        Op.endp 10 0, Op.request 0 7, Op.callback 7 [1, 2]]) 7 [9, 9]
      = Except.error Err.AlreadyFinalized)
    ∧ ((run (run initState [Op.create 0 1 "T" "" ["A", "B"] 10,
        Op.endp 10 0, Op.request 0 7, Op.callback 7 [1, 2]])
          [Op.castVote 1 3 0 0, Op.callback 7 [5, 5]]).clearVoteCounts 0
      = (run initState [Op.create 0 1 "T" "" ["A", "B"] 10,
        Op.endp 10 0, Op.request 0 7, Op.callback 7 [1, 2]]).clearVoteCounts 0) :=
  ⟨(C7_finalize_idempotent (run initState [Op.create 0 1 "T" "" ["A", "B"] 10,
        Op.endp 10 0, Op.request 0 7, Op.callback 7 [1, 2]]) 0 (by decide)).1
      7 [9, 9] (by decide),
   (C7_finalize_idempotent (run initState [Op.create 0 1 "T" "" ["A", "B"] 10,
        Op.endp 10 0, Op.request 0 7, Op.callback 7 [1, 2]]) 0 (by decide)).2
      [Op.castVote 1 3 0 0, Op.callback 7 [5, 5]]⟩

/-- C10: in any reachable state (callbacks restricted to created polls, so
that never-created ids still hold their defaults), requestFinalize on a
never-created pollId does not fail: both guards pass on the default record,
the submitted ciphertext batch is empty, and the pending-request table maps
the oracle's requestId to the nonexistent pollId. -/
theorem C10_finalize_nonexistent (ops : List Op) (pid rid : Nat)
    (hgood : goodFrom initState ops = true)
    (hp : (run initState ops).pollCount ≤ pid) :
    requestFinalize (run initState ops) pid rid
      = Except.ok ([], requestCommit (run initState ops) pid rid)
    ∧ (requestCommit (run initState ops) pid rid).requestToPoll rid = pid := by
  obtain ⟨hD, _, _⟩ := UInv_run ops initState UInv_init
  obtain ⟨hF, _, _⟩ := GInv_run ops initState GInv_init hgood
  have hact := (hD pid hp).1
  have hopts := (hD pid hp).2
  have hfin := hF pid hp
  constructor
  · simp only [requestFinalize]
    rw [if_neg (by simp [hact]), if_neg (by simp [hfin])]
    simp [hopts]
  · simp [requestCommit]

theorem C10_witness :
    requestFinalize initState 3 9 = Except.ok ([], requestCommit initState 3 9)
    ∧ (requestCommit initState 3 9).requestToPoll 9 = 3 :=
  C10_finalize_nonexistent [] 3 9 (by decide) (by decide)

/-- C8: createPoll validation and round-trip.  In any reachable state (with
callbacks restricted to created polls): an empty title yields InvalidTitle,
fewer than two options yields InsufficientOptions, a non-future expiry
yields InvalidExpiry; on valid input createPoll succeeds, allocates id
`pollCount`, and an immediately following getPoll on that id returns exactly
the submitted title, description, options and expiry with isActive = true,
while isFinalized on that id is false. -/
theorem C8_create_getPoll (ops : List Op) (hgood : goodFrom initState ops = true)
    (now : Nat) (sender : Address) (t d : String) (o : List String) (e : Nat) :
    (t.length = 0 →
      createPoll (run initState ops) now sender t d o e
        = Except.error Err.InvalidTitle)
    ∧ (t.length ≠ 0 → o.length < 2 →
      createPoll (run initState ops) now sender t d o e
        = Except.error Err.InsufficientOptions)
    ∧ (t.length ≠ 0 → 2 ≤ o.length → e ≤ now →
      createPoll (run initState ops) now sender t d o e
        = Except.error Err.InvalidExpiry)
    ∧ (t.length ≠ 0 → 2 ≤ o.length → now < e →
      createPoll (run initState ops) now sender t d o e
        = Except.ok ((run initState ops).pollCount,
            createCommit (run initState ops) sender t d o e)
      ∧ getPoll (createCommit (run initState ops) sender t d o e)
            (run initState ops).pollCount
        = Except.ok (t, d, o, e, sender, true)
      ∧ isFinalized (createCommit (run initState ops) sender t d o e)
            (run initState ops).pollCount = false) := by
  obtain ⟨hF, _, _⟩ := GInv_run ops initState GInv_init hgood
  refine ⟨fun h1 => ?_, fun h1 h2 => ?_, fun h1 h2 h3 => ?_, fun h1 h2 h3 => ⟨?_, ?_, ?_⟩⟩
  · simp only [createPoll]
    rw [if_pos h1]
  · simp only [createPoll]
    rw [if_neg h1, if_pos h2]
  · simp only [createPoll]
    rw [if_neg h1, if_neg (by omega), if_pos h3]
  · simp only [createPoll]
    rw [if_neg h1, if_neg (by omega), if_neg (by omega)]
  · simp only [getPoll, createCommit]
    simp
  · simp only [isFinalized, createCommit]
    simpa using hF (run initState ops).pollCount (le_refl _)

theorem C8_witness :
    (createPoll initState 0 1 "" "D" ["A", "B"] 10 = Except.error Err.InvalidTitle)
    ∧ (createPoll initState 0 1 "T" "D" ["A"] 10 = Except.error Err.InsufficientOptions)
    ∧ (createPoll initState 5 1 "T" "D" ["A", "B"] 5 = Except.error Err.InvalidExpiry)
    ∧ (createPoll initState 0 1 "T" "D" ["A", "B"] 10
        = Except.ok (0, createCommit initState 1 "T" "D" ["A", "B"] 10))
    ∧ (getPoll (createCommit initState 1 "T" "D" ["A", "B"] 10) 0
        = Except.ok ("T", "D", ["A", "B"], 10, 1, true))
    ∧ (isFinalized (createCommit initState 1 "T" "D" ["A", "B"] 10) 0 = false) :=
  ⟨(C8_create_getPoll [] (by decide) 0 1 "" "D" ["A", "B"] 10).1 (by decide),
   (C8_create_getPoll [] (by decide) 0 1 "T" "D" ["A"] 10).2.1 (by decide) (by decide),
   (C8_create_getPoll [] (by decide) 5 1 "T" "D" ["A", "B"] 5).2.2.1
      (by decide) (by decide) (by decide),
   ((C8_create_getPoll [] (by decide) 0 1 "T" "D" ["A", "B"] 10).2.2.2
      (by decide) (by decide) (by decide)).1,
   ((C8_create_getPoll [] (by decide) 0 1 "T" "D" ["A", "B"] 10).2.2.2
      (by decide) (by decide) (by decide)).2.1,
   ((C8_create_getPoll [] (by decide) 0 1 "T" "D" ["A", "B"] 10).2.2.2
      (by decide) (by decide) (by decide)).2.2⟩

/-- C2 counterexample: on a fresh contract, where requestId 42 was never
issued by any requestFinalize (the whole request table is at its default and
pollCount = 0), decryptionCallback(42, empty, _) does NOT fail with an
UnknownRequest error: it succeeds, and it mutates poll state by setting
polls[0].finalized = true for the nonexistent poll 0. -/
theorem C2_counterexample :
    initState.pollCount = 0
    ∧ initState.requestToPoll 42 = 0
    ∧ decryptionCallback initState 42 [] = Except.ok (callbackCommit initState 0 [])
    ∧ (initState.polls 0).finalized = false
    ∧ ((applyOp initState (Op.callback 42 [])).polls 0).finalized = true := by
  refine ⟨rfl, rfl, rfl, rfl, by decide⟩

/-- C2 amended: decryptionCallback performs no pending-request check — an
unknown requestId resolves to poll 0 through the mapping default.  From the
initial state, for EVERY requestId and every cleartext blob the callback
succeeds (poll 0's default record passes all guards with zero options),
finalizes the nonexistent poll 0 and stores an empty result list, instead of
failing with UnknownRequest and leaving state unchanged. -/
theorem C2_amended (rid : Nat) (cl : List Nat) :
    decryptionCallback initState rid cl = Except.ok (callbackCommit initState 0 [])
    ∧ ((applyOp initState (Op.callback rid cl)).polls 0).finalized = true
    ∧ (applyOp initState (Op.callback rid cl)).clearVoteCounts 0 = [] := by
  have h : decryptionCallback initState rid cl
      = Except.ok (callbackCommit initState 0 []) := by
    simp only [decryptionCallback, initState, defaultPoll]
    rw [if_neg (by simp), if_neg (by simp), if_neg (by simp)]
    rfl
  refine ⟨h, ?_, ?_⟩
  · simp only [applyOp]
    rw [h]
    simp [callbackCommit]
  · simp only [applyOp]
    rw [h]
    simp [callbackCommit]

/-- C3 counterexample: a stray callback (requestId 5 was never issued)
finalizes the not-yet-created poll 0; a subsequent createPoll allocates id 0
and sets isActive = true without clearing finalized, so poll 0 ends up with
isActive and finalized both true. -/
theorem C3_counterexample :
    ((run initState [Op.callback 5 [],
        Op.create 0 1 "T" "" ["A", "B"] 10]).polls 0).isActive = true
    ∧ ((run initState [Op.callback 5 [],
        Op.create 0 1 "T" "" ["A", "B"] 10]).polls 0).finalized = true := by
  exact ⟨by decide, by decide⟩

/-- C3 amended: in every state reachable by sequences of the public
operations in which each executed decryptionCallback's requestId resolves
(through the request table) to an already-created poll, no poll ever has
isActive and finalized both true.  Without that restriction the invariant
fails, because a callback can finalize a not-yet-created poll id. -/
theorem C3_amended (ops : List Op) (p : Nat)
    (hgood : goodFrom initState ops = true) :
    ¬(((run initState ops).polls p).isActive = true
      ∧ ((run initState ops).polls p).finalized = true) :=
  (GInv_run ops initState GInv_init hgood).2.1 p

theorem C3_witness :
    ¬(((run initState [Op.create 0 1 "T" "" ["A", "B"] 10, Op.endp 10 0,
        Op.request 0 7, Op.callback 7 [1, 0]]).polls 0).isActive = true
      ∧ ((run initState [Op.create 0 1 "T" "" ["A", "B"] 10, Op.endp 10 0,
        Op.request 0 7, Op.callback 7 [1, 0]]).polls 0).finalized = true) :=
  C3_amended [Op.create 0 1 "T" "" ["A", "B"] 10, Op.endp 10 0,
    Op.request 0 7, Op.callback 7 [1, 0]] 0 (by decide)

/-- C4 counterexample: the callback stores whatever values the cleartext
blob carries, without checking them against the voter count: a poll with two
options and zero voters is finalized with clearVoteCounts = [5, 9], where
5 > 0 = |hasVoted|. -/
theorem C4_counterexample :
    ((run initState [Op.create 0 1 "T" "" ["A", "B"] 10, Op.endp 10 0,
        Op.request 0 7, Op.callback 7 [5, 9]]).polls 0).finalized = true
    ∧ (run initState [Op.create 0 1 "T" "" ["A", "B"] 10, Op.endp 10 0,
        Op.request 0 7, Op.callback 7 [5, 9]]).clearVoteCounts 0 = [5, 9]
    ∧ ((run initState [Op.create 0 1 "T" "" ["A", "B"] 10, Op.endp 10 0,
        Op.request 0 7, Op.callback 7 [5, 9]]).polls 0).hasVoted.length = 0
    ∧ ((run initState [Op.create 0 1 "T" "" ["A", "B"] 10, Op.endp 10 0,
        Op.request 0 7, Op.callback 7 [5, 9]]).clearVoteCounts 0).all
        (fun v => v ≤ ((run initState [Op.create 0 1 "T" "" ["A", "B"] 10,
          Op.endp 10 0, Op.request 0 7,
          Op.callback 7 [5, 9]]).polls 0).hasVoted.length) = false := by
  refine ⟨by decide, by decide, by decide, by decide⟩

/-- C4 amended: in every reachable state in which callbacks only resolve to
created polls, finalized = true implies clearVoteCounts has exactly
len(options) entries and each entry is an unsigned 32-bit value (< 2^32).
The entries are the oracle-supplied cleartexts and are NOT bounded by
|hasVoted|. -/
theorem C4_amended (ops : List Op) (p : Nat)
    (hgood : goodFrom initState ops = true)
    (hf : ((run initState ops).polls p).finalized = true) :
    ((run initState ops).clearVoteCounts p).length
      = ((run initState ops).polls p).options.length
    ∧ ∀ v ∈ (run initState ops).clearVoteCounts p, v < M32 :=
  (GInv_run ops initState GInv_init hgood).2.2 p hf

theorem C4_witness :
    ((run initState [Op.create 0 1 "T" "" ["A", "B"] 10, Op.endp 10 0,
        Op.request 0 7, Op.callback 7 [5, 9]]).clearVoteCounts 0).length
      = ((run initState [Op.create 0 1 "T" "" ["A", "B"] 10, Op.endp 10 0,
        Op.request 0 7, Op.callback 7 [5, 9]]).polls 0).options.length :=
  (C4_amended [Op.create 0 1 "T" "" ["A", "B"] 10, Op.endp 10 0,
    Op.request 0 7, Op.callback 7 [5, 9]] 0 (by decide) (by decide)).1

/-- C5 counterexample: requestFinalize can be called twice on the same
ended-but-unfinalized poll, creating two simultaneously live pending
requests (7 and 8, both mapped to poll 1, either of which could commit);
and after the callback for request 7 commits, its request-table entry is
still present — the code never deletes it. -/
theorem C5_counterexample :
    (run initState [Op.create 0 1 "T" "" ["A", "B"] 10,
        Op.create 0 1 "U" "" ["A", "B"] 10, Op.endp 10 1,
        Op.request 1 7, Op.request 1 8]).requestToPoll 7 = 1
    ∧ (run initState [Op.create 0 1 "T" "" ["A", "B"] 10,
        Op.create 0 1 "U" "" ["A", "B"] 10, Op.endp 10 1,
        Op.request 1 7, Op.request 1 8]).requestToPoll 8 = 1
    ∧ ((run initState [Op.create 0 1 "T" "" ["A", "B"] 10,
        Op.create 0 1 "U" "" ["A", "B"] 10, Op.endp 10 1,
        Op.request 1 7, Op.request 1 8]).polls 1).finalized = false
    ∧ (decryptionCallback (run initState [Op.create 0 1 "T" "" ["A", "B"] 10,
        Op.create 0 1 "U" "" ["A", "B"] 10, Op.endp 10 1,
        Op.request 1 7, Op.request 1 8]) 7 [3, 4]).isOk = true
    ∧ (decryptionCallback (run initState [Op.create 0 1 "T" "" ["A", "B"] 10,
        Op.create 0 1 "U" "" ["A", "B"] 10, Op.endp 10 1,
        Op.request 1 7, Op.request 1 8]) 8 [3, 4]).isOk = true
    ∧ (applyOp (run initState [Op.create 0 1 "T" "" ["A", "B"] 10,
        Op.create 0 1 "U" "" ["A", "B"] 10, Op.endp 10 1,
        Op.request 1 7, Op.request 1 8]) (Op.callback 7 [3, 4])).requestToPoll 7 = 1 := by
  refine ⟨by decide, by decide, by decide, by decide, by decide, by decide⟩

/-- C5 amended: pending-request entries are never removed — a committing
decryptionCallback leaves the request table exactly as it was — and several
live requests for one poll may coexist.  What the code does guarantee is
at-most-once finalization: after a callback for some request commits, every
request id that maps to the same poll (the committed one included) is
rejected with AlreadyFinalized. -/
theorem C5_amended (s : State) (rid : Nat) (cl : List Nat)
    (h : (decryptionCallback s rid cl).isOk = true) :
    (applyOp s (Op.callback rid cl)).requestToPoll = s.requestToPoll
    ∧ ∀ rid2 cl2,
        (applyOp s (Op.callback rid cl)).requestToPoll rid2 = s.requestToPoll rid →
        decryptionCallback (applyOp s (Op.callback rid cl)) rid2 cl2
          = Except.error Err.AlreadyFinalized := by
  obtain ⟨hf, hb, hlen, heq⟩ := decryptionCallback_ok_elim s rid cl h
  have hs1 : applyOp s (Op.callback rid cl)
      = callbackCommit s (s.requestToPoll rid)
          ((List.range (s.polls (s.requestToPoll rid)).options.length).map
            (fun i => cl.getD i 0 % M32)) := by
    simp only [applyOp]
    rw [heq]
  constructor
  · rw [hs1]
    rfl
  · intro rid2 cl2 hmap
    rw [hs1] at hmap ⊢
    have hmap2 : (callbackCommit s (s.requestToPoll rid)
        ((List.range (s.polls (s.requestToPoll rid)).options.length).map
          (fun i => cl.getD i 0 % M32))).requestToPoll rid2 = s.requestToPoll rid := hmap
    simp only [decryptionCallback]
    rw [hmap2]
    rw [if_pos (by simp [callbackCommit])]

theorem C5_witness :
    (applyOp (run initState [Op.create 0 1 "T" "" ["A", "B"] 10,
        Op.create 0 1 "U" "" ["A", "B"] 10, Op.endp 10 1,
        Op.request 1 7, Op.request 1 8]) (Op.callback 7 [3, 4])).requestToPoll
      = (run initState [Op.create 0 1 "T" "" ["A", "B"] 10,
        Op.create 0 1 "U" "" ["A", "B"] 10, Op.endp 10 1,
        Op.request 1 7, Op.request 1 8]).requestToPoll
    ∧ decryptionCallback (applyOp (run initState [Op.create 0 1 "T" "" ["A", "B"] 10,
        Op.create 0 1 "U" "" ["A", "B"] 10, Op.endp 10 1,
        Op.request 1 7, Op.request 1 8]) (Op.callback 7 [3, 4])) 8 [0, 0]
      = Except.error Err.AlreadyFinalized :=
  ⟨(C5_amended (run initState [Op.create 0 1 "T" "" ["A", "B"] 10,
      Op.create 0 1 "U" "" ["A", "B"] 10, Op.endp 10 1,
      Op.request 1 7, Op.request 1 8]) 7 [3, 4] (by decide)).1,
   (C5_amended (run initState [Op.create 0 1 "T" "" ["A", "B"] 10,
      Op.create 0 1 "U" "" ["A", "B"] 10, Op.endp 10 1,
      Op.request 1 7, Op.request 1 8]) 7 [3, 4] (by decide)).2 8 [0, 0] (by decide)⟩

/-- C1 counterexample: the contract never range-checks the encrypted option
index.  A voter casting encrypted index 5 in a two-option poll is recorded
in hasVoted but the homomorphic select adds 1 to no counter, so after an
honest finalization (the oracle decrypting exactly the requested batch) the
clear counts sum to 0 while |hasVoted| at request time is 1. -/
theorem C1_counterexample :
    (honestFinalize (run initState [Op.create 0 1 "T" "" ["A", "B"] 10,
        Op.castVote 1 2 0 5, Op.endp 10 0]) 0 77).isOk = true
    ∧ (((honestFinalize (run initState [Op.create 0 1 "T" "" ["A", "B"] 10,
        Op.castVote 1 2 0 5, Op.endp 10 0]) 0 77).toOption.getD
          initState).clearVoteCounts 0).sum = 0
    ∧ ((run initState [Op.create 0 1 "T" "" ["A", "B"] 10,
        Op.castVote 1 2 0 5, Op.endp 10 0]).polls 0).hasVoted.length = 1 := by
  refine ⟨by decide, by decide, by decide⟩

/-- C1 amended: each successful vote increments AT MOST one encrypted
counter by one (none when the encrypted index is out of range), so for any
reachable state and any poll with at most 2^32 options, an honest
finalization — the callback delivering exactly the plaintexts of the batch
captured by requestFinalize — yields clear counts whose sum is at most the
number of distinct voters in hasVoted at the moment finalization was
requested. -/
theorem C1_amended (ops : List Op) (p rid : Nat)
    (hlen : ((run initState ops).polls p).options.length ≤ M32)
    (hok : (honestFinalize (run initState ops) p rid).isOk = true) :
    (((honestFinalize (run initState ops) p rid).toOption.getD
        initState).clearVoteCounts p).sum
      ≤ ((run initState ops).polls p).hasVoted.length := by
  obtain ⟨hD, hV, hK⟩ := UInv_run ops initState UInv_init
  have hreqOk : (requestFinalize (run initState ops) p rid).isOk = true := by
    unfold honestFinalize at hok
    cases hreq : requestFinalize (run initState ops) p rid with
    | error e => rw [hreq] at hok; simp [Except.isOk, Except.toBool] at hok
    | ok x => rfl
  obtain ⟨hact, hfin, heq⟩ := requestFinalize_ok_elim (run initState ops) p rid hreqOk
  have hhf : honestFinalize (run initState ops) p rid
      = decryptionCallback (requestCommit (run initState ops) p rid) rid
          ((List.range ((run initState ops).polls p).options.length).map
            ((run initState ops).polls p).encryptedVoteCounts) := by
    unfold honestFinalize
    rw [heq]
  rw [hhf] at hok ⊢
  obtain ⟨_, _, _, heq2⟩ := decryptionCallback_ok_elim _ rid _ hok
  have hq : (requestCommit (run initState ops) p rid).requestToPoll rid = p := by
    simp [requestCommit]
  rw [hq] at heq2
  have hpolls : (requestCommit (run initState ops) p rid).polls p
      = (run initState ops).polls p := rfl
  rw [hpolls] at heq2
  rw [heq2]
  simp only [Except.toOption, Option.getD, callbackCommit]
  simp only [if_pos]
  have hcounts : (List.range ((run initState ops).polls p).options.length).map
      (fun i => ((List.range ((run initState ops).polls p).options.length).map
          ((run initState ops).polls p).encryptedVoteCounts).getD i 0 % M32)
      = (List.range ((run initState ops).polls p).options.length).map
          ((run initState ops).polls p).encryptedVoteCounts := by
    apply List.map_congr_left
    intro i hi
    have hi' := List.mem_range.mp hi
    rw [getD_map_range _ _ _ hi', Nat.mod_eq_of_lt (hV p i)]
  rw [hcounts, sum_map_range]
  exact hK p hlen

theorem C1_witness :
    (((honestFinalize (run initState [Op.create 0 1 "T" "" ["A", "B"] 10,
        Op.castVote 1 2 0 0, Op.endp 10 0]) 0 77).toOption.getD
          initState).clearVoteCounts 0).sum
      ≤ ((run initState [Op.create 0 1 "T" "" ["A", "B"] 10,
        Op.castVote 1 2 0 0, Op.endp 10 0]).polls 0).hasVoted.length :=
  C1_amended [Op.create 0 1 "T" "" ["A", "B"] 10,
    Op.castVote 1 2 0 0, Op.endp 10 0] 0 77 (by decide) (by decide)

end SecretVoteBox
